import Mathlib

set_option linter.unusedVariables false

/-!
Verification development for the E6 e-paper image pipeline
(`send_image_to_epaper.py`): shallow embedding of the image-processing
core (palette, nearest-color quantization, Floyd-Steinberg dithering,
nibble packing, test pattern, and the orchestrating conversion routine),
followed by theorems about the embedded definitions.

Embedding conventions:
* Pixel channels are rationals (`ℚ`).  The Python code stores integer
  channels in images and `float` (IEEE double) channels in the dither
  working copy; all concrete inputs used below keep every intermediate
  value well inside the range where double arithmetic of the source and
  exact rational arithmetic select the same comparisons, and the metric
  weights 0.299/0.587/0.114 are embedded as exact decimals 299/1000 etc.
* An image is a width, a height and a total pixel function; the source
  only ever reads coordinates inside the declared bounds.
* Fallible code (`raise ValueError`) becomes `Except String`, and the
  outer routine which catches exceptions and returns `None` becomes
  `Option`.
-/

/-- An RGB color: channels r, g, b. -/
abbrev Color : Type := ℚ × ℚ × ℚ

/-- A raster image: dimensions plus a pixel accessor (`pixels[x, y]`). -/
structure Img where
  w : ℕ
  h : ℕ
  pix : ℕ → ℕ → Color

/-- A palette is an ordered list of (code, color) pairs, as built at
lines 130-137 of the source. -/
abbrev Palette : Type := List (ℕ × Color)

/-- The fixed E6 palette of `convert_image_for_epaper` (source lines
130-137): BLACK, WHITE, YELLOW, RED, BLUE, GREEN with codes 0x0-0x5. -/
def e6Palette : Palette :=
  [(0x0, (0, 0, 0)),
   (0x1, (255, 255, 255)),
   (0x2, (255, 255, 0)),
   (0x3, (255, 0, 0)),
   (0x4, (0, 0, 255)),
   (0x5, (0, 255, 0))]

/-- Display constants (source lines 23-25). -/
def EPD_WIDTH : ℕ := 800

def EPD_HEIGHT : ℕ := 480

def EPD_BUFFER_SIZE : ℕ := 192000

/-- Luma-weighted distance of `quantize_to_e6_palette` (source lines
404-408).  The source applies `** 0.5` to this sum before comparing;
the square root is strictly monotone on nonnegative reals, so it changes
neither which comparisons `distance < min_distance` succeed nor the
selected entry, and the embedding stays in exact rational arithmetic by
omitting it. -/
def distWeighted (c p : Color) : ℚ :=
  299/1000 * (c.1 - p.1)^2 + 587/1000 * (c.2.1 - p.2.1)^2 +
    114/1000 * (c.2.2 - p.2.2)^2

/-- Unweighted squared distance of `floyd_steinberg_dither` (source line
319) and of the snap loop in `pil_dither_to_e6` (source line 244). -/
def distUnweighted (c p : Color) : ℚ :=
  (c.1 - p.1)^2 + (c.2.1 - p.2.1)^2 + (c.2.2 - p.2.2)^2

/-- The selection loop body shared by the quantizer and the ditherer
(source lines 313-323 and 399-413): iterate over the remaining palette
entries, replacing the best entry exactly when the candidate distance is
strictly smaller (`dist < min_dist`), so ties keep the earlier entry. -/
def nearestGo (dist : Color → ℚ) : Palette → (ℕ × Color) → (ℕ × Color)
  | [], best => best
  | e :: rest, best =>
      nearestGo dist rest (if dist e.2 < dist best.2 then e else best)

/-- Nearest palette entry.  The source initializes `min_dist = inf` and
`best = palette[0]`, so the first loop iteration always installs
`palette[0]` as the best entry with its own distance as `min_dist`;
`nearestGo` starts from exactly that state.  The `[]` case is never
reached for the palettes of this program (the source would raise an
IndexError on `palette[0]`). -/
def nearest (dist : Color → ℚ) : Palette → (ℕ × Color)
  | [] => (0, (0, 0, 0))
  | b :: rest => nearestGo dist rest b

/-- Per-pixel quantization of `quantize_to_e6_palette` (source lines
399-413): weighted metric, first-entry tie-break. -/
def quantizePixel (pal : Palette) (c : Color) : ℕ × Color :=
  nearest (distWeighted c) pal

/-- Per-pixel selection inside `floyd_steinberg_dither` (source lines
313-323): unweighted metric, first-entry tie-break. -/
def fsNearest (pal : Palette) (c : Color) : ℕ × Color :=
  nearest (distUnweighted c) pal

/-- `quantize_to_e6_palette` (source lines 383-431): pointwise nearest
color under the weighted metric; the `debug` flag only saves a debug
image in the source and does not touch the pixel data. -/
def quantize_to_e6_palette (pal : Palette) (img : Img) (debug : Bool) : Img :=
  { w := img.w, h := img.h,
    pix := fun x y => (quantizePixel pal (img.pix x y)).2 }

/-! ## Floyd-Steinberg ditherer (source lines 275-381)

The source processes pixels strictly row-major over a float working
copy; the embedding is a state machine folded over the row-major
coordinate list, so that the state after any prefix of the visit order
is directly expressible. -/

/-- Channel clamp `max(0.0, min(255.0, v))` (source lines 361-363). -/
def clampChan (v : ℚ) : ℚ := max 0 (min 255 v)

/-- Clamp all three channels of a color. -/
def clampColor (c : Color) : Color :=
  (clampChan c.1, clampChan c.2.1, clampChan c.2.2)

/-- Componentwise subtraction, for the quantization error (source lines
331-333). -/
def csub (a b : Color) : Color :=
  (a.1 - b.1, a.2.1 - b.2.1, a.2.2 - b.2.2)

/-- Point update of a pixel function. -/
def updPix (f : ℕ → ℕ → Color) (x y : ℕ) (c : Color) : ℕ → ℕ → Color :=
  fun a b => if a = x ∧ b = y then c else f a b

/-- Add `err * k` to the three channels at one position (source pattern
`working_data[dy][dx][ch] += err_ch * k`). -/
def diffuseAt (f : ℕ → ℕ → Color) (x y : ℕ) (err : Color) (k : ℚ) :
    ℕ → ℕ → Color :=
  updPix f x y
    ((f x y).1 + err.1 * k, (f x y).2.1 + err.2.1 * k,
      (f x y).2.2 + err.2.2 * k)

/-- Error diffusion of one pixel (source lines 336-354): right +7/16,
below-left +3/16, below +5/16, below-right +1/16, each guarded by the
same bounds checks as the source. -/
def fsDiffuse (w h x y : ℕ) (err : Color) (f : ℕ → ℕ → Color) :
    ℕ → ℕ → Color :=
  let f1 := if x + 1 < w then diffuseAt f (x + 1) y err (7/16) else f
  if y + 1 < h then
    let f2 := if 0 < x then diffuseAt f1 (x - 1) (y + 1) err (3/16) else f1
    let f3 := diffuseAt f2 x (y + 1) err (5/16)
    if x + 1 < w then diffuseAt f3 (x + 1) (y + 1) err (1/16) else f3
  else f1

/-- The periodic clamp window (source lines 358-363): rows
`max(0,y) .. min(h, y+2)` and columns `max(0,x-1) .. min(w, x+2)`
(the source's extra `dy < len(working_data)` / `dx < len(...)` guards
are subsumed by these ranges).  Natural subtraction makes `x - 1` equal
`max(0, x-1)` exactly. -/
def fsClampWindow (w h x y : ℕ) (f : ℕ → ℕ → Color) : ℕ → ℕ → Color :=
  fun a b =>
    if (y ≤ b ∧ b < min h (y + 2)) ∧ (x - 1 ≤ a ∧ a < min w (x + 2)) then
      clampColor (f a b)
    else f a b

/-- Mutable state of the dither loop: the float working copy, the result
image pixels (a fresh black canvas at the start, as `Image.new` yields),
and the processed-pixel counter. -/
structure FSState where
  working : ℕ → ℕ → Color
  res : ℕ → ℕ → Color
  processed : ℕ

/-- One iteration of the inner loop of `floyd_steinberg_dither` (source
lines 309-363): quantize the working value with the unweighted metric,
record the chosen color, diffuse the error, and clamp the local window
only when the post-increment counter hits a multiple of 100. -/
def fsUpdate (pal : Palette) (w h : ℕ) (st : FSState) (p : ℕ × ℕ) :
    FSState :=
  let x := p.1
  let y := p.2
  let old := st.working x y
  let best := fsNearest pal old
  let err := csub old best.2
  let w1 := fsDiffuse w h x y err st.working
  let processed1 := st.processed + 1
  let w2 := if processed1 % 100 = 0 then fsClampWindow w h x y w1 else w1
  { working := w2, res := updPix st.res x y best.2, processed := processed1 }

/-- Row-major visit order: `for y in range(h): for x in range(w)`. -/
def rowMajor (w h : ℕ) : List (ℕ × ℕ) :=
  ((List.range h).map (fun y => (List.range w).map (fun x => (x, y)))).flatten

/-- Initial dither state (source lines 283-298): working copy holds the
input pixels, the result canvas is black, nothing processed yet. -/
def fsInit (img : Img) : FSState :=
  { working := fun x y => img.pix x y, res := fun _ _ => (0, 0, 0),
    processed := 0 }

/-- The dither state after visiting the first `n` pixels of the
row-major order. -/
def fsStateAt (pal : Palette) (img : Img) (n : ℕ) : FSState :=
  List.foldl (fsUpdate pal img.w img.h) (fsInit img)
    ((rowMajor img.w img.h).take n)

/-- `floyd_steinberg_dither` (source lines 275-381): run the loop over
every pixel and return the result image; `debug` only saves a debug
image in the source. -/
def floyd_steinberg_dither (pal : Palette) (img : Img) (debug : Bool) :
    Img :=
  { w := img.w, h := img.h,
    pix := (List.foldl (fsUpdate pal img.w img.h) (fsInit img)
      (rowMajor img.w img.h)).res }

/-! ## Packer (source lines 433-471) -/

/-- Reverse palette lookup.  The source builds the dict `rgb_to_code`
from the palette pairs; since the six E6 colors are pairwise distinct,
dict lookup coincides with first-match search along the palette. -/
def rgbToCode (pal : Palette) (c : Color) : Option ℕ :=
  match pal with
  | [] => none
  | e :: rest => if e.2 = c then some e.1 else rgbToCode rest c

/-- One packed row (source lines 450-463): `for x in range(0, width, 2)`
emits `(color1 << 4) | color2`, where an unmatched color falls back to
`0x0` for the even column and `0x1` for the odd column, and a missing
odd column (odd width) uses `0x1`. -/
def packRow (pal : Palette) (img : Img) (y : ℕ) : List ℕ :=
  (List.range ((img.w + 1) / 2)).map (fun k =>
    let x := 2 * k
    let color1 := (rgbToCode pal (img.pix x y)).getD 0x0
    let color2 :=
      if x + 1 < img.w then (rgbToCode pal (img.pix (x + 1) y)).getD 0x1
      else 0x1
    (color1 <<< 4) ||| color2)

/-- All rows, top to bottom, concatenated (source lines 450-463). -/
def packPixels (pal : Palette) (img : Img) : List ℕ :=
  ((List.range img.h).map (packRow pal img)).flatten

/-- `convert_to_e6_format` (source lines 433-471): reject images that
are not exactly 800x480, pack, and check the buffer length before
returning (both `raise ValueError` sites become `Except.error`). -/
def convert_to_e6_format (pal : Palette) (img : Img) :
    Except String (List ℕ) :=
  if img.w = EPD_WIDTH ∧ img.h = EPD_HEIGHT then
    let raw := packPixels pal img
    if raw.length = EPD_WIDTH * EPD_HEIGHT / 2 then Except.ok raw
    else Except.error "Buffer size mismatch"
  else Except.error "Image must be exactly 800x480"

/-- `create_test_pattern` (source lines 473-489): six 80-row bands, one
byte `(color << 4) | color` per pixel pair. -/
def create_test_pattern : List ℕ :=
  let colors : List ℕ := [0x0, 0x1, 0x2, 0x3, 0x4, 0x5]
  ((List.range EPD_HEIGHT).map (fun y =>
    let color := colors.getD (min (y / 80) 5) 0
    (List.range (EPD_WIDTH / 2)).map (fun _ => (color <<< 4) ||| color))).flatten

/-! ## Orchestration: `convert_image_for_epaper` (source lines 54-161)

The routine starts from an already decoded RGB image (file IO and the
`img.convert` call are external collaborators).  The PIL raster
operations whose numeric behavior lives outside this repository
(Lanczos resizing, thumbnailing, the enhancement filters, and PIL's
built-in palette dithering) are parameters of the embedding, collected
in `PILOps`; every branch decision, size computation, crop/paste
geometry, and the whole quantize/pack stage are embedded concretely
from the source. -/

/-- The PIL library operations the pipeline calls; their pixel-level
behavior is outside this repository. -/
structure PILOps where
  resize : Img → ℕ → ℕ → Img
  thumbnail : Img → ℕ → ℕ → Img
  contrastEnhance : Img → ℚ → Img
  colorEnhance : Img → ℚ → Img
  brightnessEnhance : Img → ℚ → Img
  pilQuantizeDither : Img → Palette → Img

/-- `img.crop((l, t, r, b))`: the axis-aligned window, PIL semantics. -/
def cropImg (img : Img) (l t r b : ℕ) : Img :=
  { w := r - l, h := b - t, pix := fun x y => img.pix (l + x) (t + y) }

/-- `canvas.paste(img, (px, py))`: overlay `img` at the given offset. -/
def pasteImg (canvas img : Img) (px py : ℕ) : Img :=
  { w := canvas.w, h := canvas.h,
    pix := fun a b =>
      if px ≤ a ∧ a < px + img.w ∧ py ≤ b ∧ b < py + img.h then
        img.pix (a - px) (b - py)
      else canvas.pix a b }

/-- `enhance_image` (source lines 169-206): contrast when `!= 1.0`, then
saturation when `!= 1.0`, then a fixed 1.1 brightness boost when either
factor exceeds 1.5.  The `debug` branches only save files. -/
def enhance_image (ops : PILOps) (img : Img) (contrast saturation : ℚ)
    (debug : Bool) : Img :=
  let e1 := if contrast ≠ 1 then ops.contrastEnhance img contrast else img
  let e2 := if saturation ≠ 1 then ops.colorEnhance e1 saturation else e1
  if 3/2 < contrast ∨ 3/2 < saturation then ops.brightnessEnhance e2 (11/10)
  else e2

/-- `pil_dither_to_e6` (source lines 208-273): PIL quantize + dither
(library call), then the snap loop (lines 237-248) that replaces every
pixel by the exactly nearest palette color under the unweighted squared
metric with the same strict-inequality first-entry tie-break. -/
def pil_dither_to_e6 (ops : PILOps) (img : Img) (pal : Palette)
    (debug : Bool) : Img :=
  let q := ops.pilQuantizeDither img pal
  { w := q.w, h := q.h,
    pix := fun x y => (nearest (distUnweighted (q.pix x y)) pal).2 }

/-! `convert_image_for_epaper` (source lines 54-161) is embedded from
the decoded RGB image on, with the routine's straight-line locals
(`resized_img`, `enhanced_img`, `quantized_img`, `raw_data`) expressed
as composed stage functions.  `return None` sites and the caught
`ValueError` become `none`. -/

/-- The `resized_img` local (source lines 76-109): resize-mode dispatch;
unrecognized values reach the final `else`, the `fit` branch. -/
def resizeStage (ops : PILOps) (img : Img) (resize_mode : String) : Img :=
  if resize_mode = "stretch" then ops.resize img EPD_WIDTH EPD_HEIGHT
  else if resize_mode = "fill" then
    if (EPD_WIDTH : ℚ) / EPD_HEIGHT < (img.w : ℚ) / img.h then
      let newW := (((EPD_HEIGHT : ℚ) * img.w / img.h).floor).toNat
      let temp := ops.resize img newW EPD_HEIGHT
      let left := (newW - EPD_WIDTH) / 2
      cropImg temp left 0 (left + EPD_WIDTH) EPD_HEIGHT
    else
      let newH := (((EPD_WIDTH : ℚ) * img.h / img.w).floor).toNat
      let temp := ops.resize img EPD_WIDTH newH
      let top := (newH - EPD_HEIGHT) / 2
      cropImg temp 0 top EPD_WIDTH (top + EPD_HEIGHT)
  else
    let th := ops.thumbnail img EPD_WIDTH EPD_HEIGHT
    let canvas : Img :=
      { w := EPD_WIDTH, h := EPD_HEIGHT, pix := fun _ _ => (255, 255, 255) }
    pasteImg canvas th ((EPD_WIDTH - th.w) / 2) ((EPD_HEIGHT - th.h) / 2)

/-- The `enhanced_img` local of the source (lines 117-122): enhancement
runs only when a factor differs from 1.0. -/
def enhanceStage (ops : PILOps) (img : Img) (contrast saturation : ℚ)
    (debug : Bool) : Img :=
  if contrast ≠ 1 ∨ saturation ≠ 1 then
    enhance_image ops img contrast saturation debug
  else img

/-- The `quantized_img` local of the source (lines 139-145): dither-mode
dispatch; unrecognized values reach the final `else`, the no-dither
quantizer. -/
def quantizeStage (ops : PILOps) (dither_mode : String) (img : Img)
    (debug : Bool) : Img :=
  if dither_mode = "fast" then pil_dither_to_e6 ops img e6Palette debug
  else if dither_mode = "quality" then
    floyd_steinberg_dither e6Palette img debug
  else quantize_to_e6_palette e6Palette img debug

/-- The tail of the routine (source lines 147-161): pack, turn the
caught `ValueError` into `none`, and apply the final length check. -/
def packStage (img : Img) : Option (List ℕ) :=
  match convert_to_e6_format e6Palette img with
  | Except.error _ => none
  | Except.ok raw => if raw.length = EPD_BUFFER_SIZE then some raw else none

def convert_image_for_epaper (ops : PILOps) (img : Img)
    (resize_mode dither_mode : String) (contrast saturation : ℚ)
    (debug : Bool) : Option (List ℕ) :=
  if (resizeStage ops img resize_mode).w = EPD_WIDTH ∧
      (resizeStage ops img resize_mode).h = EPD_HEIGHT then
    packStage (quantizeStage ops dither_mode
      (enhanceStage ops (resizeStage ops img resize_mode) contrast saturation
        debug) debug)
  else none

/-- The byte the packer emits for a pair of pixels both carrying color
`c`: unmatched colors fall back to code 0x0 on the even column and 0x1
on the odd column. -/
def pairByte (pal : Palette) (c : Color) : ℕ :=
  (((rgbToCode pal c).getD 0x0) <<< 4) ||| ((rgbToCode pal c).getD 0x1)

/-! ## Concrete images used by the theorems below -/

/-- An all-black 800x480 canvas. -/
def imgBlack : Img := { w := 800, h := 480, pix := fun _ _ => (0, 0, 0) }

/-- An 800x480 canvas uniformly colored (7, 7, 7) — a color with no
exact palette match. -/
def imgGray7 : Img := { w := 800, h := 480, pix := fun _ _ => (7, 7, 7) }

/-- The 2x2 scenario canvas of the spec: rows black,white / white,black. -/
def img2x2 : Img :=
  { w := 2, h := 2,
    pix := fun x y =>
      if (x = 0 ∧ y = 0) ∨ (x = 1 ∧ y = 1) then (0, 0, 0)
      else (255, 255, 255) }

/-- The two-entry palette of the spec scenario: 0x0 -> black,
0x1 -> white. -/
def pal2 : Palette := [(0x0, (0, 0, 0)), (0x1, (255, 255, 255))]

/-- A one-pixel image whose color separates the weighted and unweighted
metrics: nearest-by-weighted is RED, nearest-by-unweighted is BLUE. -/
def imgMagenta : Img := { w := 1, h := 1, pix := fun _ _ => (200, 0, 220) }

/-- A 2x1 image: mid gray then dark gray.  Quantizing the first pixel to
white leaves a large negative residual that is diffused right. -/
def imgRow2 : Img :=
  { w := 2, h := 1,
    pix := fun x _ => if x = 0 then (128, 128, 128) else (20, 20, 20) }

/-- Stub instantiation of the abstract PIL operations, used to run the
pipeline on concrete inputs whose geometry the stubs need not change. -/
def stubOps : PILOps :=
  { resize := fun i _ _ => i, thumbnail := fun i _ _ => i,
    contrastEnhance := fun i _ => i, colorEnhance := fun i _ => i,
    brightnessEnhance := fun i _ => i, pilQuantizeDither := fun i _ => i }

/-! ## Helper lemmas about the selection loop -/

theorem nearestGo_mem (dist : Color → ℚ) (l : Palette) (b : ℕ × Color) :
    nearestGo dist l b ∈ b :: l := by
  induction l generalizing b with
  | nil => simp [nearestGo]
  | cons e rest ih =>
    simp only [nearestGo]
    by_cases h : dist e.2 < dist b.2
    · rw [if_pos h]
      exact List.mem_cons_of_mem b (ih e)
    · rw [if_neg h]
      rcases List.mem_cons.mp (ih b) with h1 | h1
      · rw [h1]; exact List.mem_cons_self b _
      · exact List.mem_cons_of_mem b (List.mem_cons_of_mem e h1)

/-- The selection loop returns the first arg-min: the returned entry sits
at some index `i`, no entry has strictly smaller distance, and every
entry at an index before `i` has strictly larger distance. -/
theorem nearestGo_first_argmin (dist : Color → ℚ) (l : Palette)
    (b : ℕ × Color) :
    ∃ i, (b :: l).get? i = some (nearestGo dist l b) ∧
      (∀ e ∈ b :: l, dist (nearestGo dist l b).2 ≤ dist e.2) ∧
      (∀ j e, j < i → (b :: l).get? j = some e →
        dist (nearestGo dist l b).2 < dist e.2) := by
  induction l generalizing b with
  | nil =>
    refine ⟨0, by simp [nearestGo], ?_, ?_⟩
    · intro e he
      rcases List.mem_cons.mp he with h1 | h1
      · simp [nearestGo, h1]
      · simp at h1
    · intro j e hj
      omega
  | cons e rest ih =>
    simp only [nearestGo]
    by_cases h : dist e.2 < dist b.2
    · rw [if_pos h]
      obtain ⟨i, h1, h2, h3⟩ := ih e
      refine ⟨i + 1, by simpa using h1, ?_, ?_⟩
      · intro x hx
        rcases List.mem_cons.mp hx with h4 | h4
        · rw [h4]
          exact le_of_lt (lt_of_le_of_lt (h2 e (List.mem_cons_self e rest)) h)
        · exact h2 x h4
      · intro j x hj hx
        cases j with
        | zero =>
          have h4 : b = x := by simpa using hx
          subst h4
          exact lt_of_le_of_lt (h2 e (List.mem_cons_self e rest)) h
        | succ j =>
          exact h3 j x (by omega) (by simpa using hx)
    · rw [if_neg h]
      obtain ⟨i, h1, h2, h3⟩ := ih b
      have hble : dist b.2 ≤ dist e.2 := le_of_not_lt h
      cases i with
      | zero =>
        have hrb : b = nearestGo dist rest b := by simpa using h1
        refine ⟨0, by simp [← hrb], ?_, ?_⟩
        · intro x hx
          rcases List.mem_cons.mp hx with h4 | h4
          · rw [h4, ← hrb]
          · rcases List.mem_cons.mp h4 with h5 | h5
            · rw [h5, ← hrb]; exact hble
            · exact h2 x (List.mem_cons_of_mem b h5)
        · intro j x hj
          omega
      | succ i =>
        refine ⟨i + 2, by simpa using h1, ?_, ?_⟩
        · intro x hx
          rcases List.mem_cons.mp hx with h4 | h4
          · rw [h4]; exact h2 b (List.mem_cons_self b rest)
          · rcases List.mem_cons.mp h4 with h5 | h5
            · rw [h5]
              exact le_trans (h2 b (List.mem_cons_self b rest)) hble
            · exact h2 x (List.mem_cons_of_mem b h5)
        · intro j x hj hx
          cases j with
          | zero =>
            have h4 : b = x := by simpa using hx
            subst h4
            exact h3 0 b (by omega) rfl
          | succ j =>
            cases j with
            | zero =>
              have h4 : e = x := by simpa using hx
              subst h4
              exact lt_of_lt_of_le (h3 0 b (by omega) rfl) hble
            | succ j =>
              exact h3 (j + 1) x (by omega) (by simpa using hx)

theorem nearest_mem (dist : Color → ℚ) (pal : Palette) (hne : pal ≠ []) :
    nearest dist pal ∈ pal := by
  cases pal with
  | nil => exact absurd rfl hne
  | cons b l => exact nearestGo_mem dist l b

theorem nearest_first_argmin (dist : Color → ℚ) (pal : Palette)
    (hne : pal ≠ []) :
    ∃ i, pal.get? i = some (nearest dist pal) ∧
      (∀ e ∈ pal, dist (nearest dist pal).2 ≤ dist e.2) ∧
      (∀ j e, j < i → pal.get? j = some e →
        dist (nearest dist pal).2 < dist e.2) := by
  cases pal with
  | nil => exact absurd rfl hne
  | cons b l => exact nearestGo_first_argmin dist l b

/-! ## Helper lemmas about packing -/

theorem flatten_length_const {α : Type} (L : ℕ) (l : List (List α))
    (hL : ∀ r ∈ l, r.length = L) : l.flatten.length = l.length * L := by
  induction l with
  | nil => simp
  | cons r rs ih =>
    simp only [List.flatten_cons, List.length_append, List.length_cons]
    rw [ih (fun s hs => hL s (List.mem_cons_of_mem r hs)),
      hL r (List.mem_cons_self r rs), Nat.succ_mul]
    omega

theorem flatten_get_const {α : Type} (L : ℕ) (l : List (List α))
    (hL : ∀ r ∈ l, r.length = L) (i k : ℕ) (hi : i < l.length) (hk : k < L) :
    l.flatten[i * L + k]? = l[i]?.bind (fun r => r[k]?) := by
  induction l generalizing i with
  | nil => simp at hi
  | cons r rs ih =>
    have hr : r.length = L := hL r (List.mem_cons_self r rs)
    cases i with
    | zero =>
      simp only [List.flatten_cons, Nat.zero_mul, Nat.zero_add,
        List.getElem?_cons_zero, Option.some_bind]
      exact List.getElem?_append_left (by omega)
    | succ i =>
      have harith : (i + 1) * L + k = r.length + (i * L + k) := by
        rw [hr, Nat.succ_mul]; omega
      rw [List.flatten_cons, harith, List.getElem?_append_right (by omega)]
      simp only [Nat.add_sub_cancel_left, List.getElem?_cons_succ]
      exact ih (fun s hs => hL s (List.mem_cons_of_mem r hs)) i
        (by simpa using hi)

theorem flatten_replicate_replicate {α : Type} (n m : ℕ) (a : α) :
    (List.replicate n (List.replicate m a)).flatten = List.replicate (n * m) a := by
  induction n with
  | zero => simp
  | succ n ih =>
    rw [List.replicate_succ, List.flatten_cons, ih, Nat.succ_mul,
      Nat.add_comm, List.replicate_add]

theorem packRow_length (pal : Palette) (img : Img) (y : ℕ) :
    (packRow pal img y).length = (img.w + 1) / 2 := by
  simp [packRow]

theorem packPixels_length (pal : Palette) (img : Img) :
    (packPixels pal img).length = img.h * ((img.w + 1) / 2) := by
  unfold packPixels
  rw [flatten_length_const ((img.w + 1) / 2)]
  · simp
  · intro r hr
    rcases List.mem_map.mp hr with ⟨y, hy, rfl⟩
    exact packRow_length pal img y

theorem packRow_get (pal : Palette) (img : Img) (y k : ℕ)
    (hk : k < (img.w + 1) / 2) :
    (packRow pal img y)[k]? =
      some ((((rgbToCode pal (img.pix (2 * k) y)).getD 0x0) <<< 4) |||
        (if 2 * k + 1 < img.w
          then (rgbToCode pal (img.pix (2 * k + 1) y)).getD 0x1 else 0x1)) := by
  simp [packRow, List.getElem?_map, List.getElem?_range, hk]

theorem packPixels_get (pal : Palette) (img : Img) (y k : ℕ)
    (hy : y < img.h) (hk : k < (img.w + 1) / 2) :
    (packPixels pal img)[y * ((img.w + 1) / 2) + k]? =
      (packRow pal img y)[k]? := by
  unfold packPixels
  rw [flatten_get_const ((img.w + 1) / 2)]
  · simp [List.getElem?_map, List.getElem?_range, hy]
  · intro r hr
    rcases List.mem_map.mp hr with ⟨z, hz, rfl⟩
    exact packRow_length pal img z
  · simpa using hy
  · exact hk

/-! ## Packing constant-colored images -/

theorem packRow_const800 (pal : Palette) (img : Img) (c : Color) (y : ℕ)
    (hw : img.w = 800)
    (hpix : ∀ x z, x < 800 → z < 480 → img.pix x z = c) (hy : y < 480) :
    packRow pal img y = List.replicate 400 (pairByte pal c) := by
  rw [List.eq_replicate_iff]
  refine ⟨by simp [packRow, hw], ?_⟩
  intro b hb
  simp only [packRow, hw, List.mem_map, List.mem_range] at hb
  obtain ⟨k, hk, rfl⟩ := hb
  have hk400 : k < 400 := hk
  have h1 : img.pix (2 * k) y = c := hpix (2 * k) y (by omega) hy
  have h2 : img.pix (2 * k + 1) y = c := hpix (2 * k + 1) y (by omega) hy
  simp only [h1, h2, if_pos (show 2 * k + 1 < 800 by omega)]
  rfl

theorem packPixels_const800 (pal : Palette) (img : Img) (c : Color)
    (hw : img.w = 800) (hh : img.h = 480)
    (hpix : ∀ x z, x < 800 → z < 480 → img.pix x z = c) :
    packPixels pal img = List.replicate 192000 (pairByte pal c) := by
  unfold packPixels
  have hrows : (List.range img.h).map (packRow pal img) =
      List.replicate 480 (List.replicate 400 (pairByte pal c)) := by
    rw [List.eq_replicate_iff]
    refine ⟨by simp [hh], ?_⟩
    intro r hr
    rcases List.mem_map.mp hr with ⟨y, hy, rfl⟩
    exact packRow_const800 pal img c y hw hpix (by rw [hh] at hy; simpa using hy)
  rw [hrows, flatten_replicate_replicate]

theorem convert_const800 (pal : Palette) (img : Img) (c : Color)
    (hw : img.w = 800) (hh : img.h = 480)
    (hpix : ∀ x z, x < 800 → z < 480 → img.pix x z = c) :
    convert_to_e6_format pal img =
      Except.ok (List.replicate 192000 (pairByte pal c)) := by
  have hc : img.w = EPD_WIDTH ∧ img.h = EPD_HEIGHT := by
    constructor
    · rw [hw]; rfl
    · rw [hh]; rfl
  unfold convert_to_e6_format
  rw [if_pos hc]
  simp only [packPixels_const800 pal img c hw hh hpix, List.length_replicate]
  rw [if_pos]
  rfl

theorem rgbToCode_black : rgbToCode e6Palette ((0 : ℚ), (0 : ℚ), (0 : ℚ)) = some 0 := by
  norm_num [rgbToCode, e6Palette]

theorem rgbToCode_gray7 : rgbToCode e6Palette ((7 : ℚ), (7 : ℚ), (7 : ℚ)) = none := by
  norm_num [rgbToCode, e6Palette, Prod.ext_iff]

/-- Packing the all-black canvas yields 192000 zero bytes. -/
theorem convert_black :
    convert_to_e6_format e6Palette imgBlack =
      Except.ok (List.replicate 192000 0) := by
  have h := convert_const800 e6Palette imgBlack ((0 : ℚ), (0 : ℚ), (0 : ℚ))
    rfl rfl (fun x z hx hz => rfl)
  rwa [show pairByte e6Palette ((0 : ℚ), (0 : ℚ), (0 : ℚ)) = 0 by
    simp only [pairByte]; rw [rgbToCode_black]; rfl] at h

/-- Packing the unmatched uniform gray canvas silently yields 192000
bytes 0x01 built from the fallback codes. -/
theorem convert_gray7 :
    convert_to_e6_format e6Palette imgGray7 =
      Except.ok (List.replicate 192000 1) := by
  have h := convert_const800 e6Palette imgGray7 ((7 : ℚ), (7 : ℚ), (7 : ℚ))
    rfl rfl (fun x z hx hz => rfl)
  rwa [show pairByte e6Palette ((7 : ℚ), (7 : ℚ), (7 : ℚ)) = 1 by
    simp only [pairByte]; rw [rgbToCode_gray7]; rfl] at h

theorem e6Palette_ne_nil : e6Palette ≠ [] := by simp [e6Palette]

theorem quantizePixel_black :
    quantizePixel e6Palette ((0 : ℚ), (0 : ℚ), (0 : ℚ)) = (0, (0, 0, 0)) := by
  norm_num [quantizePixel, nearest, nearestGo, distWeighted, e6Palette]

theorem rgbToCode_isSome_of_mem (e : ℕ × Color) (he : e ∈ e6Palette) :
    (rgbToCode e6Palette e.2).isSome = true := by
  simp only [e6Palette, List.mem_cons, List.not_mem_nil, or_false] at he
  rcases he with rfl | rfl | rfl | rfl | rfl | rfl <;>
    norm_num [rgbToCode, e6Palette, Prod.ext_iff]

/-- The result canvas of the dither loop only ever holds palette colors:
it starts black (a palette color) and every write stores the color of a
selected palette entry. -/
theorem fs_foldl_res_mem (ps : List (ℕ × ℕ)) (w h : ℕ) (st : FSState)
    (hst : ∀ a b, ∃ e ∈ e6Palette, st.res a b = e.2) (a b : ℕ) :
    ∃ e ∈ e6Palette, (List.foldl (fsUpdate e6Palette w h) st ps).res a b = e.2 := by
  induction ps generalizing st with
  | nil => exact hst a b
  | cons p ps ih =>
    simp only [List.foldl_cons]
    apply ih
    intro a2 b2
    simp only [fsUpdate, updPix]
    by_cases hab : a2 = p.1 ∧ b2 = p.2
    · rw [if_pos hab]
      exact ⟨fsNearest e6Palette (st.working p.1 p.2),
        nearest_mem _ _ e6Palette_ne_nil, rfl⟩
    · rw [if_neg hab]
      exact hst a2 b2

/-! ## Claim theorems -/

/-- C1: for every 800x480 input image the packer returns a byte buffer
of length exactly ceil(W/2)*H = 192000, and the length is checked before
the buffer is returned: whenever `convert_to_e6_format` returns a buffer
at all (for any input image), that buffer has length 192000, mismatches
having been turned into errors. -/
theorem C1_pack_length_invariant (pal : Palette) (img : Img)
    (hw : img.w = EPD_WIDTH) (hh : img.h = EPD_HEIGHT)
    (img2 : Img) (out : List ℕ)
    (hok : convert_to_e6_format pal img2 = Except.ok out) :
    (∃ raw, convert_to_e6_format pal img = Except.ok raw ∧
      raw.length = 192000) ∧ out.length = 192000 := by
  constructor
  · have hlen : (packPixels pal img).length = EPD_WIDTH * EPD_HEIGHT / 2 := by
      rw [packPixels_length, hw, hh]; decide
    refine ⟨packPixels pal img, ?_, ?_⟩
    · unfold convert_to_e6_format
      rw [if_pos ⟨hw, hh⟩, if_pos hlen]
    · rw [hlen]
      decide
  · simp only [convert_to_e6_format] at hok
    split_ifs at hok with h1 h2
    injection hok with h3
    rw [← h3, h2]
    decide

theorem C1_pack_length_invariant_witness :
    (∃ raw, convert_to_e6_format e6Palette imgBlack = Except.ok raw ∧
      raw.length = 192000) ∧
    (List.replicate 192000 (0 : ℕ)).length = 192000 :=
  C1_pack_length_invariant e6Palette imgBlack rfl rfl imgBlack
    (List.replicate 192000 0) convert_black

/-- C2 counterexample: the packer, handed the 2x2 scenario image with
the black/white palette, does not return the bytes [0x01, 0x10] — it
raises a size error, because `convert_to_e6_format` accepts only
800x480 images. -/
theorem C2_counterexample :
    convert_to_e6_format pal2 img2x2 ≠ Except.ok [0x01, 0x10] := by
  norm_num [convert_to_e6_format, img2x2, EPD_WIDTH, EPD_HEIGHT]
  intro hc
  exact absurd hc (by simp)

/-- C2 amended: the packing loop does emit, for each horizontally
adjacent pixel pair walked row-major, one byte whose high nibble is the
earlier column code and low nibble the later column code (codes looked
up with fallbacks 0x0/0x1), and on the 2x2 scenario image that loop
yields exactly [0x01, 0x10]; but `convert_to_e6_format` itself admits
only 800x480 images, so on the 2x2 input it raises a size error rather
than returning those bytes. -/
theorem C2_pack_pair_bytes (pal : Palette) (img : Img) (y k : ℕ)
    (hw : img.w = 800) (hh : img.h = 480) (hy : y < 480) (hk : k < 400) :
    (packPixels pal img)[y * 400 + k]? =
      some ((((rgbToCode pal (img.pix (2 * k) y)).getD 0x0) <<< 4) |||
        ((rgbToCode pal (img.pix (2 * k + 1) y)).getD 0x1)) ∧
    packPixels pal2 img2x2 = [0x01, 0x10] ∧
    convert_to_e6_format pal2 img2x2 =
      Except.error "Image must be exactly 800x480" := by
  refine ⟨?_, ?_, ?_⟩
  · have hL : (img.w + 1) / 2 = 400 := by rw [hw]
    have h1 := packPixels_get pal img y k (by rw [hh]; exact hy)
      (by rw [hL]; exact hk)
    rw [hL] at h1
    rw [h1, packRow_get pal img y k (by rw [hL]; exact hk),
      if_pos (by rw [hw]; omega)]
  · norm_num [packPixels, packRow, img2x2, List.range_succ, rgbToCode, pal2,
      Prod.ext_iff, Nat.shiftLeft_eq]
  · norm_num [convert_to_e6_format, img2x2, EPD_WIDTH, EPD_HEIGHT]

theorem C2_pack_pair_bytes_witness :
    (packPixels e6Palette imgBlack)[0 * 400 + 0]? =
      some ((((rgbToCode e6Palette (imgBlack.pix (2 * 0) 0)).getD 0x0) <<< 4) |||
        ((rgbToCode e6Palette (imgBlack.pix (2 * 0 + 1) 0)).getD 0x1)) ∧
    packPixels pal2 img2x2 = [0x01, 0x10] ∧
    convert_to_e6_format pal2 img2x2 =
      Except.error "Image must be exactly 800x480" :=
  C2_pack_pair_bytes e6Palette imgBlack 0 0 rfl rfl (by decide) (by decide)

/-- C3 counterexample: on the one-pixel image (200, 0, 220) the
Floyd-Steinberg ditherer picks BLUE (0,0,255), although under the
luma-weighted section-4.3 metric (which the no-dither quantizer uses and
which picks RED) the entry RED is strictly closer than BLUE — so the
dither-mode quantization step does not minimize the weighted metric. -/
theorem C3_counterexample :
    (floyd_steinberg_dither e6Palette imgMagenta false).pix 0 0 = (0, 0, 255) ∧
    (quantize_to_e6_palette e6Palette imgMagenta false).pix 0 0 = (255, 0, 0) ∧
    distWeighted (200, 0, 220) (255, 0, 0) <
      distWeighted (200, 0, 220) (0, 0, 255) := by
  refine ⟨?_, ?_, ?_⟩
  · norm_num [floyd_steinberg_dither, rowMajor, fsInit, imgMagenta, List.foldl,
      fsUpdate, fsNearest, nearest, nearestGo, distUnweighted, e6Palette,
      csub, fsDiffuse, diffuseAt, updPix, fsClampWindow, clampColor, clampChan]
  · norm_num [quantize_to_e6_palette, quantizePixel, nearest, nearestGo,
      distWeighted, e6Palette, imgMagenta]
  · norm_num [distWeighted]

/-- C3 amended: every per-pixel quantization step of the Floyd-Steinberg
ditherer selects a palette entry minimizing the UNWEIGHTED squared
distance dR^2 + dG^2 + dB^2 — not the luma-weighted section-4.3 metric
used by the no-dither quantizer; the two metrics disagree, e.g. at
(200, 0, 220), where the weighted quantizer picks RED (code 3) and the
dither step picks BLUE (code 4). -/
theorem C3_fs_unweighted_metric (pal : Palette) (c : Color)
    (hne : pal ≠ []) :
    fsNearest pal c ∈ pal ∧
    (∀ e ∈ pal, distUnweighted c (fsNearest pal c).2 ≤ distUnweighted c e.2) ∧
    quantizePixel e6Palette (200, 0, 220) = (3, (255, 0, 0)) ∧
    fsNearest e6Palette (200, 0, 220) = (4, (0, 0, 255)) := by
  refine ⟨nearest_mem _ pal hne, ?_, ?_, ?_⟩
  · obtain ⟨i, h1, h2, h3⟩ := nearest_first_argmin (distUnweighted c) pal hne
    exact h2
  · norm_num [quantizePixel, nearest, nearestGo, distWeighted, e6Palette]
  · norm_num [fsNearest, nearest, nearestGo, distUnweighted, e6Palette]

theorem C3_fs_unweighted_metric_witness :
    fsNearest e6Palette (128, 128, 128) ∈ e6Palette ∧
    (∀ e ∈ e6Palette, distUnweighted (128, 128, 128)
      (fsNearest e6Palette (128, 128, 128)).2 ≤
        distUnweighted (128, 128, 128) e.2) ∧
    quantizePixel e6Palette (200, 0, 220) = (3, (255, 0, 0)) ∧
    fsNearest e6Palette (200, 0, 220) = (4, (0, 0, 255)) :=
  C3_fs_unweighted_metric e6Palette (128, 128, 128) e6Palette_ne_nil

/-- C4: in both the no-dither quantizer and the Floyd-Steinberg
ditherer, the selected entry is the FIRST arg-min of the respective
distance along the palette declaration order: it attains the minimal
distance and every earlier-declared entry is strictly farther, so
whenever several entries tie at the minimal distance the
earliest-declared entry (and hence its code) is returned. -/
theorem C4_tie_break_first (pal : Palette) (c : Color) (hne : pal ≠ []) :
    (∃ i, pal.get? i = some (quantizePixel pal c) ∧
      (∀ e ∈ pal, distWeighted c (quantizePixel pal c).2 ≤ distWeighted c e.2) ∧
      (∀ j e, j < i → pal.get? j = some e →
        distWeighted c (quantizePixel pal c).2 < distWeighted c e.2)) ∧
    (∃ i, pal.get? i = some (fsNearest pal c) ∧
      (∀ e ∈ pal, distUnweighted c (fsNearest pal c).2 ≤ distUnweighted c e.2) ∧
      (∀ j e, j < i → pal.get? j = some e →
        distUnweighted c (fsNearest pal c).2 < distUnweighted c e.2)) :=
  ⟨nearest_first_argmin (distWeighted c) pal hne,
    nearest_first_argmin (distUnweighted c) pal hne⟩

theorem C4_tie_break_first_witness :
    (∃ i, e6Palette.get? i = some (quantizePixel e6Palette (10, 20, 30)) ∧
      (∀ e ∈ e6Palette, distWeighted (10, 20, 30)
        (quantizePixel e6Palette (10, 20, 30)).2 ≤
          distWeighted (10, 20, 30) e.2) ∧
      (∀ j e, j < i → e6Palette.get? j = some e →
        distWeighted (10, 20, 30)
          (quantizePixel e6Palette (10, 20, 30)).2 <
            distWeighted (10, 20, 30) e.2)) ∧
    (∃ i, e6Palette.get? i = some (fsNearest e6Palette (10, 20, 30)) ∧
      (∀ e ∈ e6Palette, distUnweighted (10, 20, 30)
        (fsNearest e6Palette (10, 20, 30)).2 ≤
          distUnweighted (10, 20, 30) e.2) ∧
      (∀ j e, j < i → e6Palette.get? j = some e →
        distUnweighted (10, 20, 30)
          (fsNearest e6Palette (10, 20, 30)).2 <
            distUnweighted (10, 20, 30) e.2)) :=
  C4_tie_break_first e6Palette (10, 20, 30) e6Palette_ne_nil

/-- C5 counterexample: in the 2x1 image [(128,128,128), (20,20,20)] the
pixel visited second is exactly (1,0), and at the moment of its visit
its working red channel is negative (the -127 * 7/16 error diffused from
the first pixel was never clamped, the clamp running only every 100th
pixel) — so a pixel IS quantized while holding a channel value below 0. -/
theorem C5_counterexample :
    (rowMajor 2 1)[1]? = some (1, 0) ∧
    ((fsStateAt e6Palette imgRow2 1).working 1 0).1 < 0 := by
  constructor
  · rfl
  · norm_num [fsStateAt, rowMajor, fsInit, imgRow2, List.foldl,
      fsUpdate, fsNearest, nearest, nearestGo, distUnweighted, e6Palette,
      csub, fsDiffuse, diffuseAt, updPix, fsClampWindow, clampColor, clampChan]

/-- C5 amended: the ditherer clamps the working copy only on steps where
the post-increment processed counter is a multiple of 100 — on every
other step the working copy after the step is exactly the error-diffused
one, with no clamping at all; consequently a pixel can be visited and
quantized holding channels outside [0,255]: pixel (1,0) of the 2x1 image
[(128,128,128), (20,20,20)] is visited holding (-569/16, -569/16,
-569/16) and is quantized from that unclamped value (to black). -/
theorem C5_clamp_only_periodic (pal : Palette) (w h : ℕ) (st : FSState)
    (p : ℕ × ℕ) (hcount : (st.processed + 1) % 100 ≠ 0) :
    (fsUpdate pal w h st p).working =
      fsDiffuse w h p.1 p.2
        (csub (st.working p.1 p.2) (fsNearest pal (st.working p.1 p.2)).2)
        st.working ∧
    (fsStateAt e6Palette imgRow2 1).working 1 0 =
      (-569/16, -569/16, -569/16) ∧
    (floyd_steinberg_dither e6Palette imgRow2 false).pix 1 0 = (0, 0, 0) := by
  refine ⟨?_, ?_, ?_⟩
  · simp only [fsUpdate]
    rw [if_neg hcount]
  · norm_num [fsStateAt, rowMajor, fsInit, imgRow2, List.foldl,
      fsUpdate, fsNearest, nearest, nearestGo, distUnweighted, e6Palette,
      csub, fsDiffuse, diffuseAt, updPix, fsClampWindow, clampColor, clampChan,
      Prod.ext_iff]
  · norm_num [floyd_steinberg_dither, rowMajor, fsInit, imgRow2, List.foldl,
      fsUpdate, fsNearest, nearest, nearestGo, distUnweighted, e6Palette,
      csub, fsDiffuse, diffuseAt, updPix, fsClampWindow, clampColor, clampChan]

theorem C5_clamp_only_periodic_witness :
    (fsUpdate e6Palette 2 1 (fsInit imgRow2) (0, 0)).working =
      fsDiffuse 2 1 (0, 0).1 (0, 0).2
        (csub ((fsInit imgRow2).working (0, 0).1 (0, 0).2)
          (fsNearest e6Palette
            ((fsInit imgRow2).working (0, 0).1 (0, 0).2)).2)
        ((fsInit imgRow2).working) ∧
    (fsStateAt e6Palette imgRow2 1).working 1 0 =
      (-569/16, -569/16, -569/16) ∧
    (floyd_steinberg_dither e6Palette imgRow2 false).pix 1 0 = (0, 0, 0) :=
  C5_clamp_only_periodic e6Palette 2 1 (fsInit imgRow2) (0, 0) (by decide)

/-- C6 counterexample: the color (7,7,7) has no exact palette match, yet
the packer completes without any error, assert, log or flag, silently
substituting the default codes (0x0 high nibble, 0x1 low nibble) for
every pixel and returning 192000 bytes 0x01 — indistinguishable from a
normal run. -/
theorem C6_counterexample :
    rgbToCode e6Palette ((7 : ℚ), (7 : ℚ), (7 : ℚ)) = none ∧
    convert_to_e6_format e6Palette imgGray7 =
      Except.ok (List.replicate 192000 1) :=
  ⟨rgbToCode_gray7, convert_gray7⟩

/-- C6 amended: when a pixel color has no exact palette match the packer
does not surface any defect: it silently substitutes the default codes
0x0 (even column) and 0x1 (odd column) and returns a normal-looking
buffer — for any uniformly unmatched 800x480 image the result is
`ok` with every byte (0x0 << 4) | 0x1. -/
theorem C6_silent_default_codes (c : Color)
    (hnone : rgbToCode e6Palette c = none) :
    convert_to_e6_format e6Palette { w := 800, h := 480, pix := fun _ _ => c } =
      Except.ok (List.replicate 192000 ((0x0 <<< 4) ||| 0x1)) := by
  have h := convert_const800 e6Palette
    { w := 800, h := 480, pix := fun _ _ => c } c rfl rfl (fun _ _ _ _ => rfl)
  rwa [show pairByte e6Palette c = (0x0 <<< 4) ||| 0x1 by
    simp only [pairByte]; rw [hnone]; rfl] at h

theorem C6_silent_default_codes_witness :
    convert_to_e6_format e6Palette
      { w := 800, h := 480, pix := fun _ _ => ((7 : ℚ), (7 : ℚ), (7 : ℚ)) } =
      Except.ok (List.replicate 192000 ((0x0 <<< 4) ||| 0x1)) :=
  C6_silent_default_codes ((7 : ℚ), (7 : ℚ), (7 : ℚ)) rgbToCode_gray7

/-- Quantizing any in-range-black image and packing it yields 192000
zero bytes. -/
theorem convert_quantized_black (R : Img) (hw : R.w = 800)
    (hh : R.h = 480)
    (hR : ∀ x z, x < 800 → z < 480 → R.pix x z = ((0 : ℚ), 0, 0)) :
    convert_to_e6_format e6Palette
      (quantize_to_e6_palette e6Palette R false) =
      Except.ok (List.replicate 192000 0) := by
  have h := convert_const800 e6Palette
    (quantize_to_e6_palette e6Palette R false) ((0 : ℚ), 0, 0)
    (by simp only [quantize_to_e6_palette]; exact hw)
    (by simp only [quantize_to_e6_palette]; exact hh)
    (fun x z hx hz => by
      simp only [quantize_to_e6_palette]
      rw [hR x z hx hz, quantizePixel_black])
  rwa [show pairByte e6Palette ((0 : ℚ), 0, 0) = 0 by
    simp only [pairByte]; rw [rgbToCode_black]; rfl] at h

/-- Helper: a successfully packed replicate-zero buffer passes the
final length check of the pipeline tail. -/
theorem packStage_ok (img : Img)
    (h : convert_to_e6_format e6Palette img =
      Except.ok (List.replicate 192000 0)) :
    packStage img = some (List.replicate 192000 0) := by
  unfold packStage
  rw [h]
  show (if (List.replicate 192000 (0 : ℕ)).length = EPD_BUFFER_SIZE then
    some (List.replicate 192000 (0 : ℕ)) else none) =
    some (List.replicate 192000 0)
  rw [List.length_replicate,
    if_pos (show (192000 : ℕ) = EPD_BUFFER_SIZE from rfl)]

/-- Helper: with the stub operations, the unrecognized resize mode
"bogus" lands in the fit branch, pasting the black canvas onto the white
background at offset (0,0). -/
theorem resizeStage_bogus : resizeStage stubOps imgBlack "bogus" =
    pasteImg
      { w := EPD_WIDTH, h := EPD_HEIGHT, pix := fun _ _ => (255, 255, 255) }
      imgBlack 0 0 := by
  unfold resizeStage
  rw [if_neg (show ¬("bogus" : String) = "stretch" by decide),
    if_neg (show ¬("bogus" : String) = "fill" by decide)]
  rfl

/-- Helper: with both factors 1.0 the enhancement stage is skipped. -/
theorem enhanceStage_id (ops : PILOps) (img : Img) (d : Bool) :
    enhanceStage ops img 1 1 d = img := by
  unfold enhanceStage
  rw [if_neg (by norm_num)]

/-- Helper: the unrecognized dither mode "bogus" lands in the no-dither
quantizer branch. -/
theorem quantizeStage_bogus (ops : PILOps) (img : Img) (d : Bool) :
    quantizeStage ops "bogus" img d =
      quantize_to_e6_palette e6Palette img d := by
  unfold quantizeStage
  rw [if_neg (by decide), if_neg (by decide)]

/-- Helper: inside the 800x480 canvas the bogus-resized stub image is
black everywhere. -/
theorem resizeStage_bogus_pix : ∀ x z : ℕ, x < 800 → z < 480 →
    (resizeStage stubOps imgBlack "bogus").pix x z = ((0 : ℚ), 0, 0) := by
  intro x z hx hz
  rw [resizeStage_bogus]
  simp only [pasteImg, imgBlack]
  rw [if_pos]
  exact ⟨by omega, by simpa using hx, by omega, by simpa using hz⟩

/-- C7 counterexample: with unrecognized mode strings "bogus"/"bogus"
the encode operation does not reject the configuration — the whole
pipeline runs (dispatching to the fit and no-dither defaults) and a full
frame buffer is returned. -/
theorem C7_counterexample :
    convert_image_for_epaper stubOps imgBlack "bogus" "bogus" 1 1 false =
      some (List.replicate 192000 0) := by
  unfold convert_image_for_epaper
  rw [enhanceStage_id, quantizeStage_bogus]
  rw [if_pos ⟨by rw [resizeStage_bogus]; rfl, by rw [resizeStage_bogus]; rfl⟩]
  exact packStage_ok _ (convert_quantized_black
    (resizeStage stubOps imgBlack "bogus")
    (by rw [resizeStage_bogus]; rfl) (by rw [resizeStage_bogus]; rfl)
    resizeStage_bogus_pix)

/-- C7 amended: the encode operation never rejects an unrecognized mode
string: the resize dispatch treats every value other than "stretch" and
"fill" exactly like "fit", and the dither dispatch treats every value
other than "fast" and "quality" exactly like "none"; there is no
ConfigError in the core (only the CLI argument parser outside the core
restricts the values). -/
theorem C7_unrecognized_mode_fallback (ops : PILOps) (img : Img)
    (rm dm : String) (c s : ℚ) (d : Bool)
    (h1 : rm ≠ "stretch") (h2 : rm ≠ "fill")
    (h3 : dm ≠ "fast") (h4 : dm ≠ "quality") :
    convert_image_for_epaper ops img rm dm c s d =
      convert_image_for_epaper ops img "fit" dm c s d ∧
    convert_image_for_epaper ops img rm dm c s d =
      convert_image_for_epaper ops img rm "none" c s d := by
  have hres : resizeStage ops img rm = resizeStage ops img "fit" := by
    unfold resizeStage
    rw [if_neg h1, if_neg h2,
      if_neg (show ¬("fit" : String) = "stretch" by decide),
      if_neg (show ¬("fit" : String) = "fill" by decide)]
  have hqs : ∀ (i : Img) (d2 : Bool),
      quantizeStage ops dm i d2 = quantizeStage ops "none" i d2 := by
    intro i d2
    unfold quantizeStage
    rw [if_neg h3, if_neg h4,
      if_neg (show ¬("none" : String) = "fast" by decide),
      if_neg (show ¬("none" : String) = "quality" by decide)]
  constructor
  · unfold convert_image_for_epaper
    rw [hres]
  · unfold convert_image_for_epaper
    rw [hqs]

theorem C7_unrecognized_mode_fallback_witness :
    (convert_image_for_epaper stubOps imgBlack "bogus" "bogus" 1 1 false =
      convert_image_for_epaper stubOps imgBlack "fit" "bogus" 1 1 false) ∧
    (convert_image_for_epaper stubOps imgBlack "bogus" "bogus" 1 1 false =
      convert_image_for_epaper stubOps imgBlack "bogus" "none" 1 1 false) :=
  C7_unrecognized_mode_fallback stubOps imgBlack "bogus" "bogus" 1 1 false
    (by decide) (by decide) (by decide) (by decide)

/-- C8: the debug flag changes nothing in the returned frame buffer —
every debug branch of the source only saves intermediate images or
prints, so the embedding threads the flag through every stage and no
stage consumes it: encoding with debug true and debug false is
identical. -/
theorem C8_debug_flag_no_effect (ops : PILOps) (img : Img) (rm dm : String)
    (c s : ℚ) :
    convert_image_for_epaper ops img rm dm c s true =
      convert_image_for_epaper ops img rm dm c s false := rfl

/-- C9: every pixel produced by the no-dither quantizer or by the
Floyd-Steinberg ditherer equals some palette entry's color exactly, and
consequently the packer's reverse lookup succeeds on such pixels — the
default-code fallback (0x0/0x1) branch is never taken for buffers packed
from these images. -/
theorem C9_outputs_palette_colors (img : Img) (x y : ℕ) :
    (∃ e ∈ e6Palette,
      (quantize_to_e6_palette e6Palette img false).pix x y = e.2) ∧
    (∃ e ∈ e6Palette,
      (floyd_steinberg_dither e6Palette img false).pix x y = e.2) ∧
    (rgbToCode e6Palette
      ((quantize_to_e6_palette e6Palette img false).pix x y)).isSome = true ∧
    (rgbToCode e6Palette
      ((floyd_steinberg_dither e6Palette img false).pix x y)).isSome = true := by
  have hq : ∃ e ∈ e6Palette,
      (quantize_to_e6_palette e6Palette img false).pix x y = e.2 :=
    ⟨quantizePixel e6Palette (img.pix x y),
      nearest_mem _ _ e6Palette_ne_nil, rfl⟩
  have hf : ∃ e ∈ e6Palette,
      (floyd_steinberg_dither e6Palette img false).pix x y = e.2 :=
    fs_foldl_res_mem (rowMajor img.w img.h) img.w img.h (fsInit img)
      (fun a b => ⟨(0, (0, 0, 0)), by simp [e6Palette], rfl⟩) x y
  obtain ⟨e1, he1, heq1⟩ := hq
  obtain ⟨e2, he2, heq2⟩ := hf
  exact ⟨⟨e1, he1, heq1⟩, ⟨e2, he2, heq2⟩,
    by rw [heq1]; exact rgbToCode_isSome_of_mem e1 he1,
    by rw [heq2]; exact rgbToCode_isSome_of_mem e2 he2⟩

/-- The colors list of `create_test_pattern` acts as the identity on
indices 0-5. -/
theorem colors_getD (m : ℕ) (hm : m ≤ 5) :
    ([0x0, 0x1, 0x2, 0x3, 0x4, 0x5] : List ℕ).getD m 0 = m := by
  interval_cases m <;> rfl

theorem create_test_pattern_length : create_test_pattern.length = 192000 := by
  unfold create_test_pattern
  rw [flatten_length_const 400]
  · rw [List.length_map, List.length_range]
    rfl
  · intro r hr
    rcases List.mem_map.mp hr with ⟨y, hy, rfl⟩
    dsimp only
    rw [List.length_map, List.length_range]
    rfl

theorem create_test_pattern_get (y k : ℕ) (hy : y < 480) (hk : k < 400) :
    create_test_pattern[y * 400 + k]? =
      some ((min (y / 80) 5 <<< 4) ||| min (y / 80) 5) := by
  unfold create_test_pattern
  rw [flatten_get_const 400]
  · rw [List.getElem?_map, List.getElem?_range (show y < EPD_HEIGHT from hy)]
    show ((List.range (EPD_WIDTH / 2)).map
      (fun _ => ([0, 1, 2, 3, 4, 5] : List ℕ).getD (min (y / 80) 5) 0 <<< 4 |||
        ([0, 1, 2, 3, 4, 5] : List ℕ).getD (min (y / 80) 5) 0))[k]? =
      some ((min (y / 80) 5 <<< 4) ||| min (y / 80) 5)
    rw [List.getElem?_map, List.getElem?_range (show k < EPD_WIDTH / 2 from hk)]
    rw [colors_getD (min (y / 80) 5) (min_le_right _ _)]
    rfl
  · intro r hr
    rcases List.mem_map.mp hr with ⟨z, hz, rfl⟩
    dsimp only
    rw [List.length_map, List.length_range]
    rfl
  · rw [List.length_map, List.length_range]
    exact hy
  · exact hk

/-- C10: the test-pattern generator returns exactly (800/2)*480 = 192000
bytes; the byte at flat index y*400+k is (c << 4) | c for the row code
c = min(y/80, 5), so both nibbles of every byte are equal; and the rows
form six consecutive 80-row bands with codes 0x0..0x5 top to bottom
(rows 80b..80b+79 carry code b for each band b < 6). -/
theorem C10_test_pattern (y k b : ℕ) (hy : y < 480) (hk : k < 400)
    (hb : b < 6) (hlo : 80 * b ≤ y) (hhi : y < 80 * b + 80) :
    create_test_pattern.length = 192000 ∧
    create_test_pattern[y * 400 + k]? =
      some ((min (y / 80) 5 <<< 4) ||| min (y / 80) 5) ∧
    ((min (y / 80) 5 <<< 4) ||| min (y / 80) 5) / 16 = min (y / 80) 5 ∧
    ((min (y / 80) 5 <<< 4) ||| min (y / 80) 5) % 16 = min (y / 80) 5 ∧
    min (y / 80) 5 = b := by
  have hband : min (y / 80) 5 = b := by omega
  refine ⟨create_test_pattern_length, create_test_pattern_get y k hy hk,
    ?_, ?_, hband⟩
  · rw [hband]
    interval_cases b <;> decide
  · rw [hband]
    interval_cases b <;> decide

theorem C10_test_pattern_witness :
    create_test_pattern.length = 192000 ∧
    create_test_pattern[0 * 400 + 0]? =
      some ((min (0 / 80) 5 <<< 4) ||| min (0 / 80) 5) ∧
    ((min (0 / 80) 5 <<< 4) ||| min (0 / 80) 5) / 16 = min (0 / 80) 5 ∧
    ((min (0 / 80) 5 <<< 4) ||| min (0 / 80) 5) % 16 = min (0 / 80) 5 ∧
    min (0 / 80) 5 = 0 :=
  C10_test_pattern 0 0 0 (by decide) (by decide) (by decide) (by decide)
    (by decide)
